import Mathlib

/-!
# Axintera on-chain tooling

A shallow embedding of the four scripts under `onchain/`:

* `test/gauge.js` : the integration test of the reward gauge,
* `ignition/modules/RewardGaugeModule.js` and `ignition/modules/DeployFieldGate.js` :
  the two deployment descriptors,
* `hardhat.config.js` : the network and explorer configuration.

Object literals become structures and association lists, the calls into the
client library (`ethers.utils`) become pure functions on byte lists, and the
module builder of the deployment framework becomes explicit state passing.
-/

namespace Axintera

/-! ## Byte strings and hex strings (`ethers.utils`) -/

/-- Big-endian encoding of `n` on exactly `w` bytes (the high part is dropped
when `n` does not fit). -/
def toBytesBE : Nat → Nat → List Nat
  | 0, _ => []
  | w + 1, n => toBytesBE w (n / 256) ++ [n % 256]

/-- Value of a big-endian byte string. -/
def fromBytesBE (bs : List Nat) : Nat :=
  bs.foldl (fun acc b => acc * 256 + b) 0

/-- Lower-case hexadecimal digit of a value below 16. -/
def hexDigit (n : Nat) : Char :=
  if n < 10 then Char.ofNat (48 + n) else Char.ofNat (87 + n)

/-- Value of a hexadecimal digit, in either case. -/
def hexValue (c : Char) : Option Nat :=
  if 48 ≤ c.toNat ∧ c.toNat ≤ 57 then some (c.toNat - 48)
  else if 97 ≤ c.toNat ∧ c.toNat ≤ 102 then some (c.toNat - 87)
  else if 65 ≤ c.toNat ∧ c.toNat ≤ 70 then some (c.toNat - 55)
  else none

/-- Two hexadecimal digits per byte, high nibble first. -/
def hexChars : List Nat → List Char
  | [] => []
  | b :: bs => hexDigit (b / 16) :: hexDigit (b % 16) :: hexChars bs

/-- Reads the digits of a hex string two by two; fails on an odd number of
digits or on a character that is not a hexadecimal digit. -/
def parseHexChars : List Char → Option (List Nat)
  | [] => some []
  | [_] => none
  | c :: d :: rest =>
    match hexValue c, hexValue d, parseHexChars rest with
    | some hi, some lo, some bs => some ((hi * 16 + lo) :: bs)
    | _, _, _ => none

/-- The library's `ethers.utils.hexlify` on a byte array: the `0x` prefix and two lower-case
digits per byte. -/
def hexlify (bs : List Nat) : String :=
  String.mk ('0' :: 'x' :: hexChars bs)

/-- The library's `ethers.utils.arrayify` on a hex string: the bytes it denotes; fails (the
library throws) when the string is not `0x` followed by whole bytes. -/
def arrayify (s : String) : Option (List Nat) :=
  match s.data with
  | '0' :: 'x' :: rest => parseHexChars rest
  | _ => none

/-! ## Packed encoding (`ethers.utils.solidityPack`) -/

/-- The Solidity types the test packs. -/
inductive SolType where
  | address : SolType
  | uint : Nat → SolType
  deriving DecidableEq, Repr

/-- Packed encoding of one value: an address is its 20 bytes, a `uintN` is
`N / 8` big-endian bytes; a value out of the type's range is rejected
(the library throws). -/
def pack1 : SolType → Nat → Option (List Nat)
  | .address, v => if v < 2 ^ 160 then some (toBytesBE 20 v) else none
  | .uint bits, v =>
    if bits % 8 ≠ 0 ∨ bits = 0 ∨ 256 < bits then none
    else if v < 2 ^ bits then some (toBytesBE (bits / 8) v) else none

/-- The library's `solidityPack(types, values)`: the concatenation of the packed values;
fails when the two lists differ in length or a value is rejected. -/
def solidityPack : List SolType → List Nat → Option (List Nat)
  | [], [] => some []
  | t :: ts, v :: vs =>
    match pack1 t v, solidityPack ts vs with
    | some b, some bs => some (b ++ bs)
    | _, _ => none
  | _, _ => none

/-- The type list of the score record in `test/gauge.js`:
`["address","uint16","uint64"]`. -/
def repTypes : List SolType := [.address, .uint 16, .uint 64]

/-- The byte string the test hashes: the packed (address, score, epoch). -/
def packScore (addr scoreBps epoch : Nat) : Option (List Nat) :=
  solidityPack repTypes [addr, scoreBps, epoch]

/-! ## Constants of the scripts -/

/-- The line `const scoreBps = 7500;` in `test/gauge.js`. -/
def scoreBps : Nat := 7500

/-- The line `const epoch = 0n;` in `test/gauge.js`. -/
def epoch : Nat := 0

/-- Basis points: `10000` is 100%. -/
def BPS_MAX : Nat := 10000

/-- The default of parameter `rewardToken` in `RewardGaugeModule.js`. -/
def defaultRewardToken : String := "0x5FbDB2315678afecb367f032d93F642f64180aa3"

/-- A well-formed address string: `0x` followed by exactly 40 hexadecimal
digits. -/
def isAddressString (s : String) : Bool :=
  match s.data with
  | '0' :: 'x' :: rest => rest.length == 40 && rest.all (fun c => (hexValue c).isSome)
  | _ => false

/-! ## Decimal amounts (`ethers.utils.parseEther`) -/

/-- Value of a string of decimal digits; the empty string counts as zero, as
in the library, and any other character is rejected. -/
def parseDigits (cs : List Char) : Option Nat :=
  cs.foldl (fun acc c =>
    match acc with
    | some n => if 48 ≤ c.toNat ∧ c.toNat ≤ 57 then some (n * 10 + (c.toNat - 48)) else none
    | none => none) (some 0)

/-- The library's `parseUnits(value, decimals)` on a non-negative decimal string: the whole
part scaled by `10 ^ decimals` plus the fraction, whose trailing zeros are
dropped and which may hold at most `decimals` digits. -/
def parseUnits (value : String) (decimals : Nat) : Option Nat :=
  let cs := value.data
  let whole := cs.takeWhile (fun c => c != '.')
  let fraction0 := (cs.dropWhile (fun c => c != '.')).drop 1
  let fraction := (fraction0.reverse.dropWhile (fun c => c == '0')).reverse
  if cs = [] ∨ cs = ['.'] then none
  else if decimals < fraction.length then none
  else
    match parseDigits whole,
        parseDigits (fraction ++ List.replicate (decimals - fraction.length) '0') with
    | some w, some f => some (w * 10 ^ decimals + f)
    | _, _ => none

/-- The library's `ethers.utils.parseEther(value)`, which is `parseUnits(value, 18)`. -/
def parseEther (value : String) : Option Nat := parseUnits value 18

/-! ## Hashing and signing -/

/-- The hash function and the signature recovery shared by the client library
and the chain. Both are external; `keccak256` yields the hash as a number,
read as 32 big-endian bytes. -/
structure Crypto (Sig : Type) where
  keccak256 : List Nat → Nat
  recover : List Nat → Sig → Nat

/-- The 32 bytes of the hash of `bs`. -/
def keccakBytes {Sig : Type} (C : Crypto Sig) (bs : List Nat) : List Nat :=
  toBytesBE 32 (C.keccak256 bs)

/-- The library's `ethers.utils.solidityKeccak256(types, values)`: the hex string of the
hash of the packed encoding. -/
def solidityKeccak256 {Sig : Type} (C : Crypto Sig) (types : List SolType)
    (values : List Nat) : Option String :=
  match solidityPack types values with
  | some bs => some (hexlify (keccakBytes C bs))
  | none => none

/-- What `ethers.getSigners()` hands to the test: an account with its address
and its `signMessage`. -/
structure Signer (Sig : Type) where
  address : Nat
  signMessage : List Nat → Sig

/-! ## The test script `test/gauge.js` -/

/-- The contract surface the test observes. The contracts are external to the
script: each call either fails (it throws or reverts) or answers, and the
state-changing ones hand back the next state of the world. -/
structure Contracts (Sig World : Type) where
  /-- Call `Token.deploy()` then `token.deployed()`: the address of the new token. -/
  deployToken : World → Option (Nat × World)
  /-- Call `Gauge.deploy(token.address)` then `gauge.deployed()`. -/
  deployGauge : World → Nat → Option (Nat × World)
  /-- Call `gauge.submitScore(hash, scoreBps, sig)` then `tx.wait()`, for the gauge
  at the first address, sent by the second; the `bytes32` argument travels as
  the 32 bytes of the hex string. -/
  submitScore : World → Nat → Nat → List Nat → Nat → Sig → Option World
  /-- View `gauge.lastScore(who)`. -/
  lastScore : World → Nat → Nat → Option Nat
  /-- View `token.balanceOf(who)`. -/
  balanceOf : World → Nat → Nat → Option Nat

/-- The calls the test makes, in order, with their arguments. -/
inductive Call (Sig : Type) where
  | deployToken : Call Sig
  | deployGauge (token : Nat) : Call Sig
  | solidityKeccak256 (types : List SolType) (values : List Nat) : Call Sig
  | signMessage (message : List Nat) : Call Sig
  | submitScore (hash : String) (scoreBps : Nat) (signature : Sig) : Call Sig
  | lastScore (who : Nat) : Call Sig
  | balanceOf (who : Nat) : Call Sig

/-- What one run of the test leaves behind: the addresses of the two
contracts, the hash and the signature it built, the world before and after
the submission, the two values it read, the calls it made and whether both
expectations held. -/
structure GaugeRun (Sig World : Type) where
  token : Nat
  gauge : Nat
  repHash : String
  sig : Sig
  before : World
  after : World
  stored : Nat
  bal : Nat
  calls : List (Call Sig)
  passed : Bool

/-- The test "stores the new score and mints 1 xREP", run by `provider` (the
first signer, who also sends the transactions) against the contracts `K` from
the world `w0`. A step that throws or reverts ends the run with `none`. -/
def gaugeTest {Sig World : Type} (C : Crypto Sig) (K : Contracts Sig World)
    (provider : Signer Sig) (w0 : World) : Option (GaugeRun Sig World) :=
  -- deploy token
  match K.deployToken w0 with
  | none => none
  | some (token, w1) =>
    -- deploy gauge
    match K.deployGauge w1 token with
    | none => none
    | some (gauge, w2) =>
      -- build + sign repHash
      match solidityKeccak256 C repTypes [provider.address, scoreBps, epoch] with
      | none => none
      | some repHash =>
        match arrayify repHash with
        | none => none
        | some message =>
          let sig := provider.signMessage message
          -- call
          match K.submitScore w2 gauge provider.address message scoreBps sig with
          | none => none
          | some w3 =>
            -- read state
            match K.lastScore w3 gauge provider.address,
                K.balanceOf w3 token provider.address, parseEther "1" with
            | some stored, some bal, some one =>
              some
                { token := token
                  gauge := gauge
                  repHash := repHash
                  sig := sig
                  before := w2
                  after := w3
                  stored := stored
                  bal := bal
                  calls :=
                    [ Call.deployToken, Call.deployGauge token,
                      Call.solidityKeccak256 repTypes [provider.address, scoreBps, epoch],
                      Call.signMessage message,
                      Call.submitScore repHash scoreBps sig,
                      Call.lastScore provider.address,
                      Call.balanceOf provider.address ]
                  -- assertions
                  passed := decide (stored = scoreBps) && (Nat.repr bal == Nat.repr one) }
            | _, _, _ => none

/-! ## The contracts -/

/-- One whole token unit in base units (18 decimals). -/
def ONE_TOKEN : Nat := 10 ^ 18

/-- Modelled from the spec: the state of the `RewardGauge` contract, whose
source is not in the repository. It is bound to a reward token at
construction, keeps the last score of each address (`lastScore`) and the
epoch that namespaces submissions. -/
structure RewardGauge where
  rewardToken : Nat
  lastScore : Nat → Nat
  epoch : Nat

/-- Modelled from the spec: the chain the test runs on, holding the deployed
`RewardToken` contracts (each a table of balances) and `RewardGauge`
contracts by address. -/
structure Chain where
  nextAddress : Nat
  tokens : Nat → Option (Nat → Nat)
  gauges : Nat → Option RewardGauge

/-- Point update of a table. -/
def setAt {β : Type} (f : Nat → β) (k : Nat) (v : β) : Nat → β :=
  fun x => if x = k then v else f x

/-- Modelled from the spec: deployment of a fresh `RewardToken` (no
constructor arguments); nobody holds a balance yet. -/
def deployToken (c : Chain) : Nat × Chain :=
  (c.nextAddress,
    { nextAddress := c.nextAddress + 1
      tokens := setAt c.tokens c.nextAddress (some (fun _ => 0))
      gauges := setAt c.gauges c.nextAddress none })

/-- Modelled from the spec: deployment of a `RewardGauge` bound to the token
at `token`; no score is stored and the epoch is 0. -/
def deployGauge (c : Chain) (token : Nat) : Nat × Chain :=
  (c.nextAddress,
    { nextAddress := c.nextAddress + 1
      tokens := setAt c.tokens c.nextAddress none
      gauges := setAt c.gauges c.nextAddress
        (some { rewardToken := token, lastScore := fun _ => 0, epoch := 0 }) })

/-- Modelled from the spec: `submitScore(hash, scoreBps, signature)` of the
unseen `RewardGauge`, called by `sender` on the gauge at `gauge`. The gauge
accepts a signed score: `hash` must be the hash of the packed
(sender, scoreBps, epoch) and `signature` must be the sender's signature over
it. It then stores the score as `lastScore(sender)` and mints one whole unit
of its reward token to the sender. Anything else reverts. -/
def submitScore {Sig : Type} (C : Crypto Sig) (c : Chain) (gauge sender : Nat)
    (hash : List Nat) (score : Nat) (signature : Sig) : Option Chain :=
  match c.gauges gauge with
  | none => none
  | some g =>
    match c.tokens g.rewardToken, packScore sender score g.epoch with
    | some bal, some packed =>
      if hash = keccakBytes C packed ∧ C.recover hash signature = sender then
        some { nextAddress := c.nextAddress
               tokens := setAt c.tokens g.rewardToken
                 (some (setAt bal sender (bal sender + ONE_TOKEN)))
               gauges := setAt c.gauges gauge
                 (some { rewardToken := g.rewardToken
                         lastScore := setAt g.lastScore sender score
                         epoch := g.epoch }) }
      else none
    | _, _ => none

/-- Modelled from the spec: the view `lastScore(address) -> score` of the
gauge at `gauge`. -/
def lastScore (c : Chain) (gauge who : Nat) : Option Nat :=
  match c.gauges gauge with
  | some g => some (g.lastScore who)
  | none => none

/-- Modelled from the spec: the view `balanceOf(address) -> amount` of the
token at `token`. -/
def balanceOf (c : Chain) (token who : Nat) : Option Nat :=
  match c.tokens token with
  | some bal => some (bal who)
  | none => none

/-- Modelled from the spec: the contract surface of the test, answered by the
`RewardToken` and `RewardGauge` above. -/
def chainContracts {Sig : Type} (C : Crypto Sig) : Contracts Sig Chain :=
  { deployToken := fun c => some (deployToken c)
    deployGauge := fun c token => some (deployGauge c token)
    submitScore := fun c gauge sender hash score signature =>
      submitScore C c gauge sender hash score signature
    lastScore := lastScore
    balanceOf := balanceOf }

/-! ## Deployment descriptors (`ignition/modules`) -/

/-- A value a module parameter can take. -/
inductive ParamValue where
  | str : String → ParamValue
  | num : Int → ParamValue
  | bool : Bool → ParamValue
  deriving DecidableEq, Repr

/-- A constructor argument as the module declares it: a literal, or a module
parameter with its default (what `m.getParameter` returns). -/
inductive Arg where
  | lit : ParamValue → Arg
  | param : String → Option ParamValue → Arg
  deriving DecidableEq, Repr

/-- A contract deployment declared by `m.contract(name, args)`. -/
structure ContractFuture where
  contractName : String
  args : List Arg
  deriving DecidableEq, Repr

/-- The module builder `m`: the deployments declared and the parameters read
so far, in order. -/
structure ModuleBuilder where
  futures : List ContractFuture
  paramsRead : List String
  deriving DecidableEq, Repr

/-- The builder's `m.getParameter(name, defaultValue)`. -/
def ModuleBuilder.getParameter (m : ModuleBuilder) (name : String)
    (defaultValue : Option ParamValue) : Arg × ModuleBuilder :=
  (Arg.param name defaultValue,
    { futures := m.futures, paramsRead := m.paramsRead ++ [name] })

/-- The builder's `m.contract(name, args)`; a call without `args` passes the empty list. -/
def ModuleBuilder.contract (m : ModuleBuilder) (name : String) (args : List Arg) :
    ContractFuture × ModuleBuilder :=
  ({ contractName := name, args := args },
    { futures := m.futures ++ [{ contractName := name, args := args }]
      paramsRead := m.paramsRead })

/-- A built module: its id, what its callback declared and the object the
callback returned, as key and deployment pairs. -/
structure IgnitionModule where
  id : String
  futures : List ContractFuture
  paramsRead : List String
  results : List (String × ContractFuture)
  deriving DecidableEq, Repr

/-- The framework's `buildModule(id, callback)`: runs the callback on an empty builder. -/
def buildModule (id : String)
    (callback : ModuleBuilder → List (String × ContractFuture) × ModuleBuilder) :
    IgnitionModule :=
  let (results, m) := callback { futures := [], paramsRead := [] }
  { id := id, futures := m.futures, paramsRead := m.paramsRead, results := results }

/-- The module of `RewardGaugeModule.js`. -/
def RewardGaugeModule : IgnitionModule :=
  buildModule "RewardGaugeModule" fun m =>
    -- fetch a constructor param or fall back to this default
    let (rewardToken, m) := m.getParameter "rewardToken" (some (.str defaultRewardToken))
    -- deploy the proxy (or regular) contract
    let (gauge, m) := m.contract "RewardGauge" [rewardToken]
    ([("gauge", gauge)], m)

/-- The module of `DeployFieldGate.js`. -/
def FlowYieldGateModule : IgnitionModule :=
  buildModule "FlowYieldGateModule" fun m =>
    let (flowYieldGate, m) := m.contract "FlowYieldGate" []
    ([("flowYieldGate", flowYieldGate)], m)

/-- A parameter assignment for one module: the overridden parameters. -/
abbrev Params := String → Option ParamValue

/-- Value of a constructor argument under a parameter assignment: the
override when there is one, the default otherwise; a parameter with neither
cannot be resolved. -/
def resolveArg (params : Params) : Arg → Option ParamValue
  | .lit v => some v
  | .param name defaultValue =>
    match params name with
    | some v => some v
    | none => defaultValue

/-- Resolves a list of arguments, failing when one of them fails. -/
def resolveArgs (params : Params) : List Arg → Option (List ParamValue)
  | [] => some []
  | a :: as =>
    match resolveArg params a, resolveArgs params as with
    | some v, some vs => some (v :: vs)
    | _, _ => none

/-- A deployment as it is executed: the contract and its constructor
arguments. -/
structure Deployment where
  contractName : String
  constructorArgs : List ParamValue
  deriving DecidableEq, Repr

/-- Resolves the deployments a module returns, key by key. -/
def resolveResults (params : Params) :
    List (String × ContractFuture) → Option (List (String × Deployment))
  | [] => some []
  | (key, f) :: rest =>
    match resolveArgs params f.args, resolveResults params rest with
    | some vs, some ds => some ((key, { contractName := f.contractName, constructorArgs := vs }) :: ds)
    | _, _ => none

/-- What deploying a module under a parameter assignment yields. -/
def deployModule (md : IgnitionModule) (params : Params) :
    Option (List (String × Deployment)) :=
  resolveResults params md.results

/-! ## Network configuration (`hardhat.config.js`) -/

/-- An entry of `networks`. An unset environment variable reads as
`undefined`, here `none`. -/
structure NetworkConfig where
  url : String
  accounts : List (Option String)
  deriving DecidableEq, Repr

/-- An entry of `etherscan.customChains`; `urls` is kept as an object, a list
of keys and values. -/
structure CustomChain where
  network : String
  chainId : Nat
  urls : List (String × String)
  deriving DecidableEq, Repr

/-- The `etherscan` section. -/
structure EtherscanConfig where
  apiKey : List (String × String)
  customChains : List CustomChain
  deriving DecidableEq, Repr

/-- The exported configuration object. -/
structure HardhatConfig where
  solidity : String
  networks : List (String × NetworkConfig)
  etherscan : EtherscanConfig
  ignition : List (String × String)
  deriving DecidableEq, Repr

/-- The process environment, after `dotenv` has loaded its file. -/
abbrev ProcessEnv := String → Option String

/-- The object `module.exports` of `hardhat.config.js`, for the environment
`env`. -/
def hardhatConfig (env : ProcessEnv) : HardhatConfig :=
  { solidity := "0.8.28"
    networks :=
      [ ("flow",
          { url := "https://mainnet.evm.nodes.onflow.org"
            accounts := [env "DEPLOY_WALLET_1"] }),
        ("flowTestnet",
          { url := "https://testnet.evm.nodes.onflow.org"
            accounts := [env "DEPLOY_WALLET_1"] }) ]
    etherscan :=
      { apiKey := [("flow", "abc"), ("flowTestnet", "abc")]
        customChains :=
          [ { network := "flow"
              chainId := 747
              urls :=
                [ ("apiURL", "https://evm.flowscan.io/api"),
                  ("browserURL", "https://evm.flowscan.io/") ] },
            { network := "flowTestnet"
              chainId := 545
              urls :=
                [ ("apiURL", "https://evm-testnet.flowscan.io/api"),
                  ("browserURL", "https://evm-testnet.flowscan.io/") ] } ] }
    ignition := [] }

/-- Names of the configured networks. -/
def networkNames (cfg : HardhatConfig) : List String :=
  cfg.networks.map Prod.fst

/-- Keys of `etherscan.apiKey`. -/
def apiKeyNames (cfg : HardhatConfig) : List String :=
  cfg.etherscan.apiKey.map Prod.fst

/-- The `network` fields of `etherscan.customChains`. -/
def customChainNames (cfg : HardhatConfig) : List String :=
  cfg.etherscan.customChains.map CustomChain.network

/-- Looks a network up by name. -/
def networkOf (cfg : HardhatConfig) (name : String) : Option NetworkConfig :=
  cfg.networks.lookup name

/-- Chain id registered for a network name in `etherscan.customChains`. -/
def chainIdOf (cfg : HardhatConfig) (name : String) : Option Nat :=
  (cfg.etherscan.customChains.find? (fun c => c.network == name)).map CustomChain.chainId

/-! ## A concrete instance

A small hash, a signature scheme whose signatures carry the signer and the
message, one signer and an empty chain, on which the definitions above can be
evaluated. -/

/-- A signature that records who signed what. -/
abbrev PlainSig := Nat × List Nat

/-- A hash that reads the bytes as a number, and a recovery that returns the
recorded signer when the message is the recorded one. -/
def plainCrypto : Crypto PlainSig :=
  { keccak256 := fun bs => fromBytesBE bs % 2 ^ 256
    recover := fun m s => if s.2 = m then s.1 else 0 }

/-- The signer at address `a`. -/
def plainSigner (a : Nat) : Signer PlainSig :=
  { address := a, signMessage := fun m => (a, m) }

/-- A chain with no contract on it. -/
def emptyChain : Chain :=
  { nextAddress := 100, tokens := fun _ => none, gauges := fun _ => none }

/-- An environment that sets only `DEPLOY_WALLET_1`. -/
def walletOnlyEnv : ProcessEnv :=
  fun k => if k = "DEPLOY_WALLET_1" then some "0xabc" else none

/-- An environment with the same `DEPLOY_WALLET_1` and every other variable
set as well. -/
def crowdedEnv : ProcessEnv :=
  fun k => if k = "DEPLOY_WALLET_1" then some "0xabc" else some "other"

/-! ## Lemmas on the byte encodings -/

theorem toBytesBE_length (w n : Nat) : (toBytesBE w n).length = w := by
  induction w generalizing n with
  | zero => rfl
  | succ w ih => simp [toBytesBE, ih]

theorem toBytesBE_inj (w : Nat) : ∀ a b : Nat, a < 256 ^ w → b < 256 ^ w →
    toBytesBE w a = toBytesBE w b → a = b := by
  induction w with
  | zero =>
    intro a b ha hb _
    simp at ha hb
    omega
  | succ w ih =>
    intro a b ha hb h
    simp only [toBytesBE] at h
    have hl : (toBytesBE w (a / 256)).length = (toBytesBE w (b / 256)).length := by
      simp [toBytesBE_length]
    obtain ⟨h1, h2⟩ := List.append_inj h hl
    have h3 : a % 256 = b % 256 := by simpa using h2
    have ha2 : a / 256 < 256 ^ w := by
      rw [Nat.div_lt_iff_lt_mul (by norm_num)]; rw [pow_succ] at ha; exact ha
    have hb2 : b / 256 < 256 ^ w := by
      rw [Nat.div_lt_iff_lt_mul (by norm_num)]; rw [pow_succ] at hb; exact hb
    have h4 := ih _ _ ha2 hb2 h1
    omega

theorem packScore_eq (a s e : Nat) (ha : a < 2 ^ 160) (hs : s < 2 ^ 16) (he : e < 2 ^ 64) :
    packScore a s e = some (toBytesBE 20 a ++ (toBytesBE 2 s ++ toBytesBE 8 e)) := by
  have h8 : toBytesBE (64 / 8) e = toBytesBE 8 e := rfl
  have h2 : toBytesBE (16 / 8) s = toBytesBE 2 s := rfl
  simp only [packScore, repTypes, solidityPack, pack1]
  rw [if_pos ha, if_neg (by decide), if_pos hs, if_neg (by decide), if_pos he, h8, h2]
  simp

theorem toBytesBE_lt (w n : Nat) : ∀ b ∈ toBytesBE w n, b < 256 := by
  induction w generalizing n with
  | zero => intro b hb; simp [toBytesBE] at hb
  | succ w ih =>
    intro b hb
    simp only [toBytesBE, List.mem_append, List.mem_singleton] at hb
    rcases hb with hb | hb
    · exact ih _ b hb
    · omega

theorem hexValue_hexDigit (n : Nat) (h : n < 16) : hexValue (hexDigit n) = some n := by
  interval_cases n <;> rfl

theorem parseHexChars_hexChars (bs : List Nat) (h : ∀ b ∈ bs, b < 256) :
    parseHexChars (hexChars bs) = some bs := by
  induction bs with
  | nil => rfl
  | cons b bs ih =>
    have hb : b < 256 := h b (List.mem_cons_self _ _)
    have hbs : ∀ x ∈ bs, x < 256 := fun x hx => h x (List.mem_cons_of_mem _ hx)
    have h1 : hexValue (hexDigit (b / 16)) = some (b / 16) := hexValue_hexDigit _ (by omega)
    have h2 : hexValue (hexDigit (b % 16)) = some (b % 16) := hexValue_hexDigit _ (by omega)
    have h3 : b / 16 * 16 + b % 16 = b := by omega
    simp only [hexChars, parseHexChars, h1, h2, ih hbs, h3]

theorem arrayify_hexlify (bs : List Nat) (h : ∀ b ∈ bs, b < 256) :
    arrayify (hexlify bs) = some bs := by
  simp only [arrayify, hexlify]
  exact parseHexChars_hexChars bs h

/-! ## The packed score record -/

/-- C9: for every triple in range the packed encoding of (address, uint16
score, uint64 epoch) exists and is exactly 20 + 2 + 8 = 30 bytes long, and two
triples in range with the same packed encoding are equal componentwise. -/
theorem packScore_length_injective (a s e a' s' e' : Nat)
    (ha : a < 2 ^ 160) (hs : s < 2 ^ 16) (he : e < 2 ^ 64)
    (ha' : a' < 2 ^ 160) (hs' : s' < 2 ^ 16) (he' : e' < 2 ^ 64) :
    (∃ bs, packScore a s e = some bs ∧ bs.length = 20 + 2 + 8 ∧ bs.length = 30) ∧
    (packScore a s e = packScore a' s' e' → a = a' ∧ s = s' ∧ e = e') := by
  refine ⟨⟨_, packScore_eq a s e ha hs he, ?_, ?_⟩, ?_⟩
  · simp [toBytesBE_length]
  · simp [toBytesBE_length]
  · intro h
    rw [packScore_eq a s e ha hs he, packScore_eq a' s' e' ha' hs' he'] at h
    have h0 := Option.some.inj h
    obtain ⟨h1, h23⟩ := List.append_inj h0 (by simp [toBytesBE_length])
    obtain ⟨h2, h3⟩ := List.append_inj h23 (by simp [toBytesBE_length])
    refine ⟨toBytesBE_inj 20 a a' ?_ ?_ h1, toBytesBE_inj 2 s s' ?_ ?_ h2,
      toBytesBE_inj 8 e e' ?_ ?_ h3⟩
    · calc a < 2 ^ 160 := ha
        _ = 256 ^ 20 := by norm_num
    · calc a' < 2 ^ 160 := ha'
        _ = 256 ^ 20 := by norm_num
    · calc s < 2 ^ 16 := hs
        _ = 256 ^ 2 := by norm_num
    · calc s' < 2 ^ 16 := hs'
        _ = 256 ^ 2 := by norm_num
    · calc e < 2 ^ 64 := he
        _ = 256 ^ 8 := by norm_num
    · calc e' < 2 ^ 64 := he'
        _ = 256 ^ 8 := by norm_num

/-- Witness for C9 at the record of the test, (1, 7500, 0), against itself. -/
theorem packScore_length_injective_witness :
    (1 < 2 ^ 160 ∧ scoreBps < 2 ^ 16 ∧ epoch < 2 ^ 64) ∧
    ((∃ bs, packScore 1 scoreBps epoch = some bs ∧ bs.length = 20 + 2 + 8 ∧ bs.length = 30) ∧
      (packScore 1 scoreBps epoch = packScore 1 scoreBps epoch →
        1 = 1 ∧ scoreBps = scoreBps ∧ epoch = epoch)) :=
  ⟨⟨by norm_num, by decide, by decide⟩,
    packScore_length_injective 1 scoreBps epoch 1 scoreBps epoch
      (by norm_num) (by decide) (by decide) (by norm_num) (by decide) (by decide)⟩

/-! ## The constants -/

/-- C10: the test score 7500 is a valid basis-point value and fits the uint16
it is packed as, the epoch 0 fits uint64, and the default `rewardToken` of
`RewardGaugeModule` is `0x` followed by exactly 40 hexadecimal digits, that is
20 bytes. -/
theorem constants_in_range :
    scoreBps = 7500 ∧ 0 ≤ scoreBps ∧ scoreBps ≤ BPS_MAX ∧ BPS_MAX = 10000 ∧
    scoreBps < 2 ^ 16 ∧ (pack1 (.uint 16) scoreBps).isSome = true ∧
    epoch = 0 ∧ epoch < 2 ^ 64 ∧ (pack1 (.uint 64) epoch).isSome = true ∧
    isAddressString defaultRewardToken = true ∧
    (arrayify defaultRewardToken).map List.length = some 20 := by
  refine ⟨rfl, by decide, by decide, rfl, by decide, by decide, rfl, by decide, by decide,
    by decide, by decide⟩

/-! ## The test run -/

theorem parseEther_one : parseEther "1" = some ONE_TOKEN := by decide

theorem solidityKeccak256_rep {Sig : Type} (C : Crypto Sig) (a : Nat) (ha : a < 2 ^ 160) :
    solidityKeccak256 C repTypes [a, scoreBps, epoch] =
      some (hexlify (keccakBytes C
        (toBytesBE 20 a ++ (toBytesBE 2 scoreBps ++ toBytesBE 8 epoch)))) := by
  have hp := packScore_eq a scoreBps epoch ha (by decide) (by decide)
  unfold solidityKeccak256
  rw [show solidityPack repTypes [a, scoreBps, epoch] = packScore a scoreBps epoch from rfl, hp]

theorem arrayify_keccak {Sig : Type} (C : Crypto Sig) (bs : List Nat) :
    arrayify (hexlify (keccakBytes C bs)) = some (keccakBytes C bs) :=
  arrayify_hexlify _ (toBytesBE_lt _ _)

theorem plainCrypto_recover (a : Nat) (m : List Nat) :
    plainCrypto.recover m ((plainSigner a).signMessage m) = (plainSigner a).address := by
  simp [plainCrypto, plainSigner]

theorem gaugeTest_completes {Sig : Type} (C : Crypto Sig) (provider : Signer Sig)
    (c0 : Chain) (haddr : provider.address < 2 ^ 160)
    (hsig : ∀ m, C.recover m (provider.signMessage m) = provider.address) :
    ∃ r, gaugeTest C (chainContracts C) provider c0 = some r := by
  have hp0 : packScore provider.address scoreBps 0 = _ :=
    packScore_eq provider.address scoreBps epoch haddr (by decide) (by decide)
  simp only [gaugeTest, chainContracts, solidityKeccak256_rep C _ haddr, arrayify_keccak,
    submitScore, deployGauge, deployToken, setAt]
  simp [hp0, hsig, lastScore, balanceOf, parseEther_one, setAt]

/-- C1: the test, run by any signer with a 20-byte address whose signatures
the chain recovers, on any chain, deploys a gauge bound to the fresh token,
has its `submitScore(repHash, 7500, sig)` accepted, and afterwards
`lastScore(signer)` of that gauge is 7500, which is what the test reads. -/
theorem gaugeTest_lastScore {Sig : Type} (C : Crypto Sig) (provider : Signer Sig)
    (c0 : Chain) (haddr : provider.address < 2 ^ 160)
    (hsig : ∀ m, C.recover m (provider.signMessage m) = provider.address) :
    ∃ r, gaugeTest C (chainContracts C) provider c0 = some r ∧
      (r.before.gauges r.gauge).map RewardGauge.rewardToken = some r.token ∧
      lastScore r.after r.gauge provider.address = some 7500 ∧
      r.stored = 7500 := by
  have hp0 : packScore provider.address scoreBps 0 = _ :=
    packScore_eq provider.address scoreBps epoch haddr (by decide) (by decide)
  change ∃ r, gaugeTest C (chainContracts C) provider c0 = some r ∧
      (r.before.gauges r.gauge).map RewardGauge.rewardToken = some r.token ∧
      lastScore r.after r.gauge provider.address = some scoreBps ∧
      r.stored = scoreBps
  simp only [gaugeTest, chainContracts, solidityKeccak256_rep C _ haddr, arrayify_keccak,
    submitScore, deployGauge, deployToken, setAt]
  simp [hp0, hsig, lastScore, balanceOf, parseEther_one, setAt]

/-- Witness for C1: the signer at address 1 on the empty chain. -/
theorem gaugeTest_lastScore_witness :
    ((plainSigner 1).address < 2 ^ 160 ∧
      ∀ m, plainCrypto.recover m ((plainSigner 1).signMessage m) = (plainSigner 1).address) ∧
    ∃ r, gaugeTest plainCrypto (chainContracts plainCrypto) (plainSigner 1) emptyChain = some r ∧
      (r.before.gauges r.gauge).map RewardGauge.rewardToken = some r.token ∧
      lastScore r.after r.gauge (plainSigner 1).address = some 7500 ∧
      r.stored = 7500 :=
  ⟨⟨by simp [plainSigner], plainCrypto_recover 1⟩,
    gaugeTest_lastScore plainCrypto (plainSigner 1) emptyChain (by simp [plainSigner])
      (plainCrypto_recover 1)⟩

/-- C2: in the same run the signer holds nothing of the fresh token before
the submission and exactly `10 ^ 18` base units more after it; that amount is
`parseEther("1")`, the value the test compares `balanceOf(signer)` with, and
both expectations of the test hold. -/
theorem gaugeTest_balance {Sig : Type} (C : Crypto Sig) (provider : Signer Sig)
    (c0 : Chain) (haddr : provider.address < 2 ^ 160)
    (hsig : ∀ m, C.recover m (provider.signMessage m) = provider.address) :
    ∃ r b0, gaugeTest C (chainContracts C) provider c0 = some r ∧
      balanceOf r.before r.token provider.address = some b0 ∧
      balanceOf r.after r.token provider.address = some (b0 + 10 ^ 18) ∧
      r.bal = b0 + 10 ^ 18 ∧
      b0 = 0 ∧
      parseEther "1" = some (10 ^ 18) ∧
      r.passed = true := by
  have hp0 : packScore provider.address scoreBps 0 = _ :=
    packScore_eq provider.address scoreBps epoch haddr (by decide) (by decide)
  simp only [gaugeTest, chainContracts, solidityKeccak256_rep C _ haddr, arrayify_keccak,
    submitScore, deployGauge, deployToken, setAt]
  simp [hp0, hsig, lastScore, balanceOf, parseEther_one, setAt, ONE_TOKEN]

/-- Witness for C2: the signer at address 2 on the empty chain. -/
theorem gaugeTest_balance_witness :
    ((plainSigner 2).address < 2 ^ 160 ∧
      ∀ m, plainCrypto.recover m ((plainSigner 2).signMessage m) = (plainSigner 2).address) ∧
    ∃ r b0, gaugeTest plainCrypto (chainContracts plainCrypto) (plainSigner 2) emptyChain
        = some r ∧
      balanceOf r.before r.token (plainSigner 2).address = some b0 ∧
      balanceOf r.after r.token (plainSigner 2).address = some (b0 + 10 ^ 18) ∧
      r.bal = b0 + 10 ^ 18 ∧
      b0 = 0 ∧
      parseEther "1" = some (10 ^ 18) ∧
      r.passed = true :=
  ⟨⟨by simp [plainSigner], plainCrypto_recover 2⟩,
    gaugeTest_balance plainCrypto (plainSigner 2) emptyChain (by simp [plainSigner])
      (plainCrypto_recover 2)⟩

/-- C8: whatever the contracts answer, a run of the test that completes made
the sequence hash, sign, submit with the values threaded through unchanged:
the hash passed to `submitScore` is the hash of the packed
(signer address, scoreBps, epoch), the signature passed is the signer's
signature over the 32 bytes of that hash, the score passed is the score
hashed, and the address hashed is the one queried with `lastScore` and
`balanceOf`: the values the run read, `stored` and `bal`, are the answers of
the contracts' `lastScore` and `balanceOf` at the signer's address, on the
world the submission left, for the gauge and the token the run deployed. -/
theorem gaugeTest_calls {Sig World : Type} (C : Crypto Sig) (K : Contracts Sig World)
    (provider : Signer Sig) (w0 : World) (r : GaugeRun Sig World)
    (hrun : gaugeTest C K provider w0 = some r) :
    ∃ packed, packScore provider.address scoreBps epoch = some packed ∧
      solidityKeccak256 C repTypes [provider.address, scoreBps, epoch] = some r.repHash ∧
      r.repHash = hexlify (keccakBytes C packed) ∧
      arrayify r.repHash = some (keccakBytes C packed) ∧
      r.sig = provider.signMessage (keccakBytes C packed) ∧
      (∃ w1, K.deployToken w0 = some (r.token, w1) ∧
        K.deployGauge w1 r.token = some (r.gauge, r.before)) ∧
      K.submitScore r.before r.gauge provider.address (keccakBytes C packed) scoreBps r.sig
        = some r.after ∧
      K.lastScore r.after r.gauge provider.address = some r.stored ∧
      K.balanceOf r.after r.token provider.address = some r.bal ∧
      r.calls =
        [ Call.deployToken, Call.deployGauge r.token,
          Call.solidityKeccak256 repTypes [provider.address, scoreBps, epoch],
          Call.signMessage (keccakBytes C packed),
          Call.submitScore (hexlify (keccakBytes C packed)) scoreBps
            (provider.signMessage (keccakBytes C packed)),
          Call.lastScore provider.address,
          Call.balanceOf provider.address ] := by
  unfold gaugeTest at hrun
  cases h1 : K.deployToken w0 with
  | none => simp [h1] at hrun
  | some p1 =>
    obtain ⟨token, w1⟩ := p1
    simp only [h1] at hrun
    cases h2 : K.deployGauge w1 token with
    | none => simp [h2] at hrun
    | some p2 =>
      obtain ⟨gauge, w2⟩ := p2
      simp only [h2] at hrun
      cases hp : solidityPack repTypes [provider.address, scoreBps, epoch] with
      | none => simp [solidityKeccak256, hp] at hrun
      | some packed =>
        have hk : solidityKeccak256 C repTypes [provider.address, scoreBps, epoch] =
            some (hexlify (keccakBytes C packed)) := by
          simp only [solidityKeccak256, hp]
        simp only [hk, arrayify_keccak] at hrun
        cases h3 : K.submitScore w2 gauge provider.address (keccakBytes C packed) scoreBps
            (provider.signMessage (keccakBytes C packed)) with
        | none => simp [h3] at hrun
        | some w3 =>
          simp only [h3] at hrun
          cases h4 : K.lastScore w3 gauge provider.address with
          | none => simp [h4] at hrun
          | some stored =>
            cases h5 : K.balanceOf w3 token provider.address with
            | none => simp [h4, h5] at hrun
            | some bal =>
              simp only [h4, h5, parseEther_one, Option.some.injEq] at hrun
              subst hrun
              exact ⟨packed, hp, hk, rfl, arrayify_keccak C packed, rfl, ⟨w1, rfl, h2⟩, h3,
                h4, h5, rfl⟩

/-- Witness for C8: the run of the signer at address 3 against the modelled
contracts on the empty chain. -/
theorem gaugeTest_calls_witness :
    ∃ r, gaugeTest plainCrypto (chainContracts plainCrypto) (plainSigner 3) emptyChain = some r ∧
    ∃ packed, packScore (plainSigner 3).address scoreBps epoch = some packed ∧
      solidityKeccak256 plainCrypto repTypes [(plainSigner 3).address, scoreBps, epoch]
        = some r.repHash ∧
      r.repHash = hexlify (keccakBytes plainCrypto packed) ∧
      arrayify r.repHash = some (keccakBytes plainCrypto packed) ∧
      r.sig = (plainSigner 3).signMessage (keccakBytes plainCrypto packed) ∧
      (∃ w1, (chainContracts plainCrypto).deployToken emptyChain = some (r.token, w1) ∧
        (chainContracts plainCrypto).deployGauge w1 r.token = some (r.gauge, r.before)) ∧
      (chainContracts plainCrypto).submitScore r.before r.gauge (plainSigner 3).address
        (keccakBytes plainCrypto packed) scoreBps r.sig = some r.after ∧
      (chainContracts plainCrypto).lastScore r.after r.gauge (plainSigner 3).address
        = some r.stored ∧
      (chainContracts plainCrypto).balanceOf r.after r.token (plainSigner 3).address
        = some r.bal ∧
      r.calls =
        [ Call.deployToken, Call.deployGauge r.token,
          Call.solidityKeccak256 repTypes [(plainSigner 3).address, scoreBps, epoch],
          Call.signMessage (keccakBytes plainCrypto packed),
          Call.submitScore (hexlify (keccakBytes plainCrypto packed)) scoreBps
            ((plainSigner 3).signMessage (keccakBytes plainCrypto packed)),
          Call.lastScore (plainSigner 3).address,
          Call.balanceOf (plainSigner 3).address ] :=
  match gaugeTest_completes plainCrypto (plainSigner 3) emptyChain (by simp [plainSigner])
      (plainCrypto_recover 3) with
  | ⟨r, hr⟩ =>
    ⟨r, hr, gaugeTest_calls plainCrypto (chainContracts plainCrypto) (plainSigner 3)
      emptyChain r hr⟩

/-! ## The deployment descriptors -/

/-- C3: under every parameter assignment `RewardGaugeModule` deploys the
contract `RewardGauge` with exactly one constructor argument, the supplied
value of `rewardToken` when it is overridden and the placeholder address
otherwise, and returns that deployment under the key `gauge`. -/
theorem RewardGaugeModule_deploys (params : Params) :
    RewardGaugeModule.id = "RewardGaugeModule" ∧
    RewardGaugeModule.futures.map ContractFuture.contractName = ["RewardGauge"] ∧
    deployModule RewardGaugeModule params =
      some [("gauge",
        { contractName := "RewardGauge"
          constructorArgs :=
            [match params "rewardToken" with
              | some v => v
              | none => ParamValue.str "0x5FbDB2315678afecb367f032d93F642f64180aa3"] })] := by
  refine ⟨rfl, rfl, ?_⟩
  simp only [deployModule, RewardGaugeModule, buildModule, ModuleBuilder.getParameter,
    ModuleBuilder.contract, resolveResults, resolveArgs, resolveArg, defaultRewardToken]
  cases params "rewardToken" <;> rfl

/-- C4: the module of `DeployFieldGate.js` has id `FlowYieldGateModule`,
declares exactly one deployment, of `FlowYieldGate` with no constructor
arguments, reads no parameter, returns the deployment under the key
`flowYieldGate`, and deploys the same thing under every two parameter
assignments. -/
theorem FlowYieldGateModule_deploys :
    FlowYieldGateModule.id = "FlowYieldGateModule" ∧
    FlowYieldGateModule.futures = [{ contractName := "FlowYieldGate", args := [] }] ∧
    FlowYieldGateModule.paramsRead = [] ∧
    FlowYieldGateModule.results =
      [("flowYieldGate", { contractName := "FlowYieldGate", args := [] })] ∧
    (∀ params : Params, deployModule FlowYieldGateModule params =
      some [("flowYieldGate", { contractName := "FlowYieldGate", constructorArgs := [] })]) ∧
    (∀ p q : Params, deployModule FlowYieldGateModule p = deployModule FlowYieldGateModule q) :=
  ⟨rfl, rfl, rfl, rfl, fun _ => rfl, fun _ _ => rfl⟩

/-! ## The network configuration -/

/-- C5: whatever the environment, the configuration has exactly two networks,
`flow` at the mainnet endpoint and `flowTestnet` at the testnet endpoint, and
the chain ids registered for them are 747 and 545 in that order. -/
theorem hardhatConfig_networks (env : ProcessEnv) :
    (hardhatConfig env).networks.length = 2 ∧
    networkNames (hardhatConfig env) = ["flow", "flowTestnet"] ∧
    (hardhatConfig env).etherscan.customChains.map CustomChain.chainId = [747, 545] ∧
    (networkOf (hardhatConfig env) "flow").map NetworkConfig.url =
      some "https://mainnet.evm.nodes.onflow.org" ∧
    chainIdOf (hardhatConfig env) "flow" = some 747 ∧
    (networkOf (hardhatConfig env) "flowTestnet").map NetworkConfig.url =
      some "https://testnet.evm.nodes.onflow.org" ∧
    chainIdOf (hardhatConfig env) "flowTestnet" = some 545 := by
  refine ⟨rfl, rfl, rfl, ?_, ?_, ?_, ?_⟩
  · simp [networkOf, hardhatConfig, List.lookup]
  · simp [chainIdOf, hardhatConfig, List.find?]
  · simp [networkOf, hardhatConfig, List.lookup]
  · simp [chainIdOf, hardhatConfig, List.find?]

/-- C6: the configuration has the two networks `flow` and `flowTestnet`, the
accounts list of each is exactly the one-element list holding the value of
`DEPLOY_WALLET_1` (unset reads as `undefined`), so every network has that
single funding account; and two environments that agree on `DEPLOY_WALLET_1`
export the same configuration. -/
theorem hardhatConfig_accounts (env env' : ProcessEnv)
    (h : env "DEPLOY_WALLET_1" = env' "DEPLOY_WALLET_1") :
    networkNames (hardhatConfig env) = ["flow", "flowTestnet"] ∧
    (networkOf (hardhatConfig env) "flow").map NetworkConfig.accounts
      = some [env "DEPLOY_WALLET_1"] ∧
    (networkOf (hardhatConfig env) "flowTestnet").map NetworkConfig.accounts
      = some [env "DEPLOY_WALLET_1"] ∧
    (hardhatConfig env).networks.map (fun p => p.2.accounts)
      = [[env "DEPLOY_WALLET_1"], [env "DEPLOY_WALLET_1"]] ∧
    (∀ name n, (name, n) ∈ (hardhatConfig env).networks →
      n.accounts.length = 1 ∧ n.accounts = [env "DEPLOY_WALLET_1"]) ∧
    hardhatConfig env = hardhatConfig env' := by
  refine ⟨rfl, ?_, ?_, rfl, ?_, ?_⟩
  · simp [networkOf, hardhatConfig, List.lookup]
  · simp [networkOf, hardhatConfig, List.lookup]
  · intro name n hn
    simp only [hardhatConfig, List.mem_cons, Prod.mk.injEq, List.mem_nil_iff, or_false] at hn
    rcases hn with ⟨_, rfl⟩ | ⟨_, rfl⟩ <;> exact ⟨rfl, rfl⟩
  · simp only [hardhatConfig, h]

/-- Witness for C6: an environment with only `DEPLOY_WALLET_1` against one
where every other variable is set too; both networks hold the wallet
`0xabc`. -/
theorem hardhatConfig_accounts_witness :
    walletOnlyEnv "DEPLOY_WALLET_1" = crowdedEnv "DEPLOY_WALLET_1" ∧
    walletOnlyEnv "DEPLOY_WALLET_1" = some "0xabc" ∧
    (networkNames (hardhatConfig walletOnlyEnv) = ["flow", "flowTestnet"] ∧
    (networkOf (hardhatConfig walletOnlyEnv) "flow").map NetworkConfig.accounts
      = some [walletOnlyEnv "DEPLOY_WALLET_1"] ∧
    (networkOf (hardhatConfig walletOnlyEnv) "flowTestnet").map NetworkConfig.accounts
      = some [walletOnlyEnv "DEPLOY_WALLET_1"] ∧
    (hardhatConfig walletOnlyEnv).networks.map (fun p => p.2.accounts)
      = [[walletOnlyEnv "DEPLOY_WALLET_1"], [walletOnlyEnv "DEPLOY_WALLET_1"]] ∧
    (∀ name n, (name, n) ∈ (hardhatConfig walletOnlyEnv).networks →
      n.accounts.length = 1 ∧ n.accounts = [walletOnlyEnv "DEPLOY_WALLET_1"]) ∧
    hardhatConfig walletOnlyEnv = hardhatConfig crowdedEnv) :=
  ⟨rfl, rfl, hardhatConfig_accounts walletOnlyEnv crowdedEnv rfl⟩

/-- C7: the names in `networks`, the keys of `etherscan.apiKey` and the
`network` fields of `etherscan.customChains` are the same set, `flow` and
`flowTestnet`; each name occurs in `customChains` exactly once; and each
`customChains` entry carries both an `apiURL` and a `browserURL`. -/
theorem hardhatConfig_explorer_keys (env : ProcessEnv) :
    (∀ n, n ∈ networkNames (hardhatConfig env) ↔ n = "flow" ∨ n = "flowTestnet") ∧
    (∀ n, n ∈ apiKeyNames (hardhatConfig env) ↔ n = "flow" ∨ n = "flowTestnet") ∧
    (∀ n, n ∈ customChainNames (hardhatConfig env) ↔ n = "flow" ∨ n = "flowTestnet") ∧
    (∀ n ∈ networkNames (hardhatConfig env),
      (customChainNames (hardhatConfig env)).count n = 1) ∧
    (∀ c ∈ (hardhatConfig env).etherscan.customChains,
      (c.urls.lookup "apiURL").isSome = true ∧ (c.urls.lookup "browserURL").isSome = true) := by
  refine ⟨?_, ?_, ?_, ?_, ?_⟩
  · intro n; simp [networkNames, hardhatConfig]
  · intro n; simp [apiKeyNames, hardhatConfig]
  · intro n; simp [customChainNames, hardhatConfig]
  · intro n hn
    simp only [networkNames, hardhatConfig, List.map, List.mem_cons, List.mem_nil_iff,
      or_false] at hn
    have hc : customChainNames (hardhatConfig env) = ["flow", "flowTestnet"] := rfl
    rw [hc]
    rcases hn with rfl | rfl <;> decide
  · intro c hc
    simp only [hardhatConfig, List.mem_cons, List.mem_nil_iff, or_false] at hc
    rcases hc with rfl | rfl <;> exact ⟨by decide, by decide⟩

end Axintera
